import Mathlib

/-!
Shallow embedding of the trello-to-slack notifier.

Modelled modules:
  * `schema.rs`  — the data model (`Card`, `Action`, `ActionType`, lists, members).
  * `trello.rs`  — `last_update_from_card`, `moved_to_list_date`,
    `creation_date_from_card_id`, and the `is_sorted_descending` debug check
    from `util.rs`.
  * `main.rs`    — the aggregation pipelines (`get_pending_reviews`,
    `get_inactive_cards`), the composers, the per-user dispatch loops, and the
    action dispatch in `main`.

Conventions of the embedding:
  * `time::OffsetDateTime` values are modelled as `Int` Unix seconds.  The
    `time` crate accepts Unix timestamps in the closed range
    `[-377705116800, 253402300799]` (years -9999..9999); `tsMin`/`tsMax` record
    that range.
  * Rust `i64` division (`Duration::whole_days` / `whole_weeks`) truncates
    toward zero, which is `Int.tdiv`.
  * The `as usize` cast of an `i64` wraps modulo `2 ^ 64`; `wrap64` performs it.
  * `HashMap`s are modelled as association lists; iteration order of a map is
    the list order (Rust's order is arbitrary, so any list order is a possible
    run).
  * Card identifiers are treated as sequences of characters; this matches the
    byte-level Rust code on ASCII identifiers, which is the shape of every
    identifier the board service produces.
  * Network fetches are modelled as data already in hand: the per-list card
    fetch becomes a function from lists to card collections.
-/

namespace TrelloSlack

/-- `schema.rs` `List`: a named Trello list. -/
structure TrelloList where
  id : String
  name : String
deriving DecidableEq, Repr

/-- `schema.rs` `ActionType`: discriminated action kind with catch-all. -/
inductive ActionType where
  | updateCard
  | createCard
  | other (s : String)
deriving DecidableEq, Repr

/-- `schema.rs` `CardAction`: the card payload inside an action's data. -/
structure CardActionData where
  id : String
  idList : Option String
deriving DecidableEq, Repr

/-- `schema.rs` `ActionData` (fields the logic reads). -/
structure ActionData where
  card : CardActionData
  listAfter : Option TrelloList
  listBefore : Option TrelloList
deriving DecidableEq, Repr

/-- `schema.rs` `Action` (fields the logic reads); `date` is Unix seconds. -/
structure Action where
  id : String
  date : Int
  type : ActionType
  data : ActionData
deriving DecidableEq, Repr

/-- `schema.rs` `Card`; `dateLastActivity` is Unix seconds. -/
structure Card where
  id : String
  idList : String
  idMembers : List String
  name : String
  dateLastActivity : Int
  actions : List Action
  url : String
deriving DecidableEq, Repr

/-- Smallest Unix timestamp `time::OffsetDateTime::from_unix_timestamp` accepts. -/
def tsMin : Int := -377705116800

/-- Largest Unix timestamp `time::OffsetDateTime::from_unix_timestamp` accepts. -/
def tsMax : Int := 253402300799

/-- `time::OffsetDateTime::from_unix_timestamp`: range-checked conversion. -/
def from_unix_timestamp (ts : Int) : Except String Int :=
  if tsMin ≤ ts ∧ ts ≤ tsMax then .ok ts else .error "unix_timestamp out of range"

/-- Value of a hexadecimal digit, as in Rust's `char::to_digit(16)`. -/
def hexDigitValue (c : Char) : Option Nat :=
  if '0' ≤ c ∧ c ≤ '9' then some (c.toNat - '0'.toNat)
  else if 'a' ≤ c ∧ c ≤ 'f' then some (c.toNat - 'a'.toNat + 10)
  else if 'A' ≤ c ∧ c ≤ 'F' then some (c.toNat - 'A'.toNat + 10)
  else none

/-- `u32::MAX`. -/
def u32Max : Nat := 4294967295

/-- Digit-accumulation loop of `u32::from_str_radix(_, 16)`: checked multiply
and add, failing on overflow past `u32::MAX` or on an invalid digit. -/
def parseHexDigits : List Char → Nat → Option Nat
  | [], acc => some acc
  | c :: rest, acc =>
    match hexDigitValue c with
    | some d =>
      let acc' := acc * 16 + d
      if acc' ≤ u32Max then parseHexDigits rest acc' else none
    | none => none

/-- `u32::from_str_radix(s, 16)`: empty input fails, an optional leading `+`
sign is accepted (a bare `+` fails), a `-` is not a digit and fails. -/
def u32_from_str_radix_16 (s : List Char) : Option Nat :=
  match s with
  | [] => none
  | '+' :: rest =>
    match rest with
    | [] => none
    | _ => parseHexDigits rest 0
  | _ => parseHexDigits s 0

/-- `trello.rs` `creation_date_from_card_id`: interpret the identifier's first
8 characters as a big-endian hexadecimal Unix timestamp. -/
def creation_date_from_card_id (card_id : String) : Except String Int :=
  if card_id.length < 8 then .error "Card ID is too short to extract timestamp"
  else
    match u32_from_str_radix_16 (card_id.toList.take 8) with
    | none => .error "invalid digit found in string"
    | some n => from_unix_timestamp (Int.ofNat n)

/-- The per-action test inside the scan loop of `moved_to_list_date`:
an update-move whose `listAfter` is the card's current list, or a creation
action whose creation-time list is the card's current list.  Any other action
kind is inert. -/
def actionEntersList (card : Card) (action : Action) : Bool :=
  match action.type with
  | ActionType.updateCard =>
    match action.data.listAfter with
    | some listAfter => listAfter.id == card.idList
    | none => false
  | ActionType.createCard => action.data.card.idList == some card.idList
  | ActionType.other _ => false

/-- The scan loop of `moved_to_list_date`: return the date of the first
qualifying action in physical order, falling back to
`creation_date_from_card_id` when none matches. -/
def moved_to_list_date_scan (card : Card) : List Action → Except String Int
  | [] => creation_date_from_card_id card.id
  | action :: rest =>
    if actionEntersList card action then .ok action.date
    else moved_to_list_date_scan card rest

/-- `trello.rs` `moved_to_list_date` (release semantics: the
`debug_assert!(is_sorted_descending ...)` is compiled out). -/
def moved_to_list_date (card : Card) : Except String Int :=
  moved_to_list_date_scan card card.actions

/-- `trello.rs` `last_update_from_card`. -/
def last_update_from_card (card : Card) : Int :=
  card.dateLastActivity

/-- `util.rs` `is_sorted_descending`: adjacent pairs are non-increasing. -/
def is_sorted_descending : List Action → Bool
  | [] => true
  | [_] => true
  | a :: b :: rest => decide (b.date ≤ a.date) && is_sorted_descending (b :: rest)

/-- Dates of the actions of `card` that enter its current list. -/
def action_dates_into_list (card : Card) : List Int :=
  (card.actions.filter (actionEntersList card)).map (fun a => a.date)

/-- The `as usize` cast of an `i64` value: wrap modulo `2 ^ 64`. -/
def wrap64 (x : Int) : Nat :=
  (x % (2 ^ 64 : Int)).toNat

/-- `(now - reference).whole_days() as usize` from `get_pending_reviews`:
truncating signed division by 86400 seconds, then the usize cast. -/
def elapsed_days (now reference : Int) : Nat :=
  wrap64 (Int.tdiv (now - reference) 86400)

/-- `(now - reference).whole_weeks() as usize` from `get_inactive_cards`:
truncating signed division by 604800 seconds, then the usize cast. -/
def elapsed_weeks (now reference : Int) : Nat :=
  wrap64 (Int.tdiv (now - reference) 604800)

/-- `main.rs` `INACTIVE_WEEKS_THRESHOLD`. -/
def INACTIVE_WEEKS_THRESHOLD : Nat := 2

/-- `main.rs` `PendingReview`. -/
structure PendingReview where
  card_name : String
  card_url : String
  pending_since_days : Nat
deriving DecidableEq, Repr

/-- `main.rs` `InactiveCard`. -/
structure InactiveCard where
  card_name : String
  card_url : String
  pending_since_weeks : Nat
deriving DecidableEq, Repr

/-- `HashMap::get` on an association-list model. -/
def hashMapGet (m : List (String × α)) (k : String) : Option α :=
  (m.find? (fun p => p.1 == k)).map (fun p => p.2)

/-- The member-attribution step shared by both pipelines:
`card.id_members.iter().filter_map(|id| directory.get(id).cloned())`.
Unresolvable identifiers are dropped (the Rust code logs them). -/
def resolve_users (directory : List (String × String)) (card : Card) : List String :=
  card.idMembers.filterMap (hashMapGet directory)

/-- `HashMap::entry(user).or_default().push(item)` on the association-list
model of the per-user buckets. -/
def bucket_push (user : String) (item : α) : List (String × List α) → List (String × List α)
  | [] => [(user, [item])]
  | (u, items) :: rest =>
    if u == user then (u, items ++ [item]) :: rest
    else (u, items) :: bucket_push user item rest

/-- Bucket contents of one user (`[]` when the user has no bucket). -/
def bucket_get (buckets : List (String × List α)) (user : String) : List α :=
  ((buckets.find? (fun p => p.1 == user)).map (fun p => p.2)).getD []

/-- Loop body of `get_pending_reviews` for one card: attribute users, skip the
card when none resolves, otherwise push a `PendingReview` with elapsed whole
days since last activity into every resolved user's bucket. -/
def process_pending_card (directory : List (String × String)) (now : Int) (card : Card)
    (buckets : List (String × List PendingReview)) : List (String × List PendingReview) :=
  let trello_users := resolve_users directory card
  if trello_users.isEmpty then buckets
  else
    let review : PendingReview :=
      { card_name := card.name
        card_url := card.url
        pending_since_days := elapsed_days now (last_update_from_card card) }
    trello_users.foldl (fun b u => bucket_push u review b) buckets

/-- Loop body of `get_inactive_cards` for one card: attribute users, skip the
card when none resolves, resolve the list-entry time (`?` propagates its
error), skip the card when below `INACTIVE_WEEKS_THRESHOLD`, otherwise push an
`InactiveCard` into every resolved user's bucket. -/
def process_inactive_card (directory : List (String × String)) (now : Int) (card : Card)
    (buckets : List (String × List InactiveCard)) :
    Except String (List (String × List InactiveCard)) :=
  let trello_users := resolve_users directory card
  if trello_users.isEmpty then .ok buckets
  else
    match moved_to_list_date card with
    | .error e => .error e
    | .ok in_list_since =>
      let inactive_card : InactiveCard :=
        { card_name := card.name
          card_url := card.url
          pending_since_weeks := elapsed_weeks now in_list_since }
      if inactive_card.pending_since_weeks < INACTIVE_WEEKS_THRESHOLD then .ok buckets
      else .ok (trello_users.foldl (fun b u => bucket_push u inactive_card b) buckets)

/-- Inner card loop of `get_pending_reviews` over one fetched card list. -/
def process_cards_pending (directory : List (String × String)) (now : Int) :
    List Card → List (String × List PendingReview) → List (String × List PendingReview)
  | [], buckets => buckets
  | card :: rest, buckets =>
    process_cards_pending directory now rest (process_pending_card directory now card buckets)

/-- Inner card loop of `get_inactive_cards` over one fetched card list; the
`?` on `moved_to_list_date` aborts the whole aggregation. -/
def process_cards_inactive (directory : List (String × String)) (now : Int) :
    List Card → List (String × List InactiveCard) →
      Except String (List (String × List InactiveCard))
  | [], buckets => .ok buckets
  | card :: rest, buckets =>
    match process_inactive_card directory now card buckets with
    | .error e => .error e
    | .ok buckets' => process_cards_inactive directory now rest buckets'

/-- `main.rs` `get_pending_reviews`: the target lists are given as the card
collections fetched per list, in iteration order. -/
def get_pending_reviews (directory : List (String × String)) (now : Int)
    (target_lists : List (List Card)) : List (String × List PendingReview) :=
  target_lists.foldl (fun buckets cards => process_cards_pending directory now cards buckets) []

/-- List-level loop of `get_inactive_cards`. -/
def process_lists_inactive (directory : List (String × String)) (now : Int) :
    List (List Card) → List (String × List InactiveCard) →
      Except String (List (String × List InactiveCard))
  | [], buckets => .ok buckets
  | cards :: rest, buckets =>
    match process_cards_inactive directory now cards buckets with
    | .error e => .error e
    | .ok buckets' => process_lists_inactive directory now rest buckets'

/-- `main.rs` `get_inactive_cards`. -/
def get_inactive_cards (directory : List (String × String)) (now : Int)
    (target_lists : List (List Card)) : Except String (List (String × List InactiveCard)) :=
  process_lists_inactive directory now target_lists []

/-- `str::repeat`. -/
def repeatStr (s : String) (n : Nat) : String :=
  String.join (List.replicate n s)

/-- `usize::MAX`. -/
def usizeMax : Nat := 2 ^ 64 - 1

/-- The sort in `compose_pending_reviews_message`:
`sort_by_key(|review| usize::MAX - review.pending_since_days)` — a stable
ascending sort by the complemented key, i.e. descending by elapsed days. -/
def sort_pending_reviews (reviews : List PendingReview) : List PendingReview :=
  reviews.mergeSort
    (fun a b => decide (usizeMax - a.pending_since_days ≤ usizeMax - b.pending_since_days))

/-- One rendered line of the pending-reviews message. -/
def pending_review_line (review : PendingReview) : String :=
  let base := "- [" ++ review.card_name ++ "](" ++ review.card_url ++ ")"
  if review.pending_since_days ≥ 1 then
    base ++ " - Wartet seit " ++ toString review.pending_since_days ++ " Tag"
      ++ (if review.pending_since_days > 1 then "en" else "") ++ " "
      ++ repeatStr "🚨" (review.pending_since_days - 1) ++ "\n"
  else base ++ "\n"

/-- Header of the pending-reviews message, with the pluralization of the
source format string. -/
def pending_reviews_header (count : Nat) : String :=
  "**🔎 Du hast " ++ toString count ++ " ausstehende"
    ++ (if count == 1 then "s" else "") ++ " Review"
    ++ (if count > 1 then "s" else "") ++ ":**\n"

/-- `main.rs` `compose_pending_reviews_message` (writing to a `String` never
fails, so the embedding is pure). -/
def compose_pending_reviews_message (reviews : List PendingReview) : String :=
  let sorted := sort_pending_reviews reviews
  pending_reviews_header reviews.length
    ++ String.join (sorted.map pending_review_line)
    ++ "\n\n\n"
    ++ "Mach das Team glücklich und bearbeite das zeitnah!\n"

/-- The sort in `compose_inactive_cards_message`:
stable ascending by `usize::MAX - pending_since_weeks`. -/
def sort_inactive_cards (cards : List InactiveCard) : List InactiveCard :=
  cards.mergeSort
    (fun a b => decide (usizeMax - a.pending_since_weeks ≤ usizeMax - b.pending_since_weeks))

/-- One rendered line of the inactive-cards message. -/
def inactive_card_line (card : InactiveCard) : String :=
  "- [" ++ card.card_name ++ "](" ++ card.card_url ++ ") - In Liste seit "
    ++ toString card.pending_since_weeks ++ " Wochen "
    ++ repeatStr "🚨" (card.pending_since_weeks - INACTIVE_WEEKS_THRESHOLD) ++ "\n"

/-- Header of the inactive-cards message. -/
def inactive_cards_header (count : Nat) : String :=
  "**📝 Folgende " ++ toString count ++ " Karte"
    ++ (if count > 1 then "n" else "") ++ " "
    ++ (if count > 1 then "sind" else "ist") ++ " seit längerer Zeit im Sprint:**\n"

/-- `main.rs` `compose_inactive_cards_message`. -/
def compose_inactive_cards_message (cards : List InactiveCard) : String :=
  let sorted := sort_inactive_cards cards
  inactive_cards_header cards.length
    ++ String.join (sorted.map inactive_card_line)
    ++ "\n\n\n"
    ++ "Schau mal nach, ob die Karten zu bearbeiten sind!\n"

/-- Outcome of a per-user dispatch loop: which Slack users a post was
attempted for (in order, the failed attempt included), and the loop's result
(`.error` when a `post_message` failed and the `?` aborted the loop). -/
structure DispatchResult where
  attempted : List String
  outcome : Except String Unit
deriving Repr

/-- The Slack user a bucket entry is dispatched to, when it is dispatched:
entries with an empty bucket and entries whose Trello user has no Slack
mapping are skipped (`continue`). -/
def eligible_slack (mapping : List (String × String)) (entry : String × List α) :
    Option String :=
  if entry.2.isEmpty then none else hashMapGet mapping entry.1

/-- The per-user notification loop shared by `pending_reviews` and
`inactive_cards` in `main.rs`: iterate the buckets, skip empty buckets and
unmapped users, compose the message, post it, and abort on the first posting
failure (the `?` on `post_message`).  The bucket map's iteration order is the
list order; `poster` models `SlackMessagePoster::post_message`. -/
def dispatch_notifications (compose : List α → String)
    (mapping : List (String × String)) (poster : String → String → Except String Unit) :
    List (String × List α) → DispatchResult
  | [] => { attempted := [], outcome := .ok () }
  | entry :: rest =>
    match eligible_slack mapping entry with
    | none => dispatch_notifications compose mapping poster rest
    | some slack_user =>
      match poster slack_user (compose entry.2) with
      | .ok _ =>
        let r := dispatch_notifications compose mapping poster rest
        { attempted := slack_user :: r.attempted, outcome := r.outcome }
      | .error e => { attempted := [slack_user], outcome := .error e }

/-- `main.rs` `pending_reviews`, after the aggregation: the dispatch loop. -/
def pending_reviews_dispatch (mapping : List (String × String))
    (poster : String → String → Except String Unit)
    (buckets : List (String × List PendingReview)) : DispatchResult :=
  dispatch_notifications compose_pending_reviews_message mapping poster buckets

/-- `main.rs` `inactive_cards`, after the aggregation: the dispatch loop. -/
def inactive_cards_dispatch (mapping : List (String × String))
    (poster : String → String → Except String Unit)
    (buckets : List (String × List InactiveCard)) : DispatchResult :=
  dispatch_notifications compose_inactive_cards_message mapping poster buckets

/-- `config.rs` `ActionConfig`. -/
inductive ActionConfig where
  | pendingReviews
  | inactiveCards
deriving DecidableEq, Repr

/-- The configured list scopes (`TrelloConfig::review_lists` /
`inactive_cards_lists`). -/
structure RunConfig where
  review_lists : List String
  inactive_cards_lists : List String
deriving DecidableEq, Repr

/-- Result of one run of `main`'s action dispatch. -/
structure MainResult where
  logged_empty_scope_error : Bool
  attempted : List String
  outcome : Except String Unit
deriving Repr

/-- Scope filter for the pending-reviews action in `main`. -/
def review_scope (config : RunConfig) (lists : List TrelloList) : List TrelloList :=
  lists.filter (fun l => config.review_lists.contains l.name)

/-- Scope filter for the inactive-cards action in `main`. -/
def inactive_scope (config : RunConfig) (lists : List TrelloList) : List TrelloList :=
  lists.filter (fun l => config.inactive_cards_lists.contains l.name)

/-- The `match config.action` at the end of `main`, with the downstream
pipelines inlined.  `cardsOf` models the per-list card fetch.  The
pending-reviews arm guards an empty configured scope (log an error, return
`Ok(())`); the inactive-cards arm has no such guard and runs its pipeline
directly. -/
def run_main (action : ActionConfig) (config : RunConfig) (lists : List TrelloList)
    (cardsOf : TrelloList → List Card) (directory : List (String × String)) (now : Int)
    (mapping : List (String × String)) (poster : String → String → Except String Unit) :
    MainResult :=
  match action with
  | ActionConfig.pendingReviews =>
    if (config.review_lists).isEmpty then
      { logged_empty_scope_error := true, attempted := [], outcome := .ok () }
    else
      let buckets :=
        get_pending_reviews directory now ((review_scope config lists).map cardsOf)
      let r := pending_reviews_dispatch mapping poster buckets
      { logged_empty_scope_error := false, attempted := r.attempted, outcome := r.outcome }
  | ActionConfig.inactiveCards =>
    match get_inactive_cards directory now ((inactive_scope config lists).map cardsOf) with
    | .error e =>
      { logged_empty_scope_error := false, attempted := [], outcome := .error e }
    | .ok buckets =>
      let r := inactive_cards_dispatch mapping poster buckets
      { logged_empty_scope_error := false, attempted := r.attempted, outcome := r.outcome }

/-! ## Concrete fixtures for witnesses and counterexamples -/

/-- A target list, current list of the example cards. -/
def exSprintList : TrelloList :=
  { id := "L1", name := "Sprint" }

/-- An update-move action into `exSprintList` at time `d`. -/
def exMoveIntoL1 (d : Int) : Action :=
  { id := "a1", date := d, type := ActionType.updateCard,
    data := { card := { id := "c1", idList := some "L1" },
              listAfter := some exSprintList, listBefore := none } }

/-- A card whose action log is in ascending (unsorted) order: two update-moves
into its current list at times 100 and 200. -/
def exCardUnsorted : Card :=
  { id := "4d5ea62fd76aa1136000000c", idList := "L1", idMembers := ["m1"],
    name := "example card", dateLastActivity := 0,
    actions := [exMoveIntoL1 100, exMoveIntoL1 200],
    url := "https://trello.example/c/one" }

/-- The same card with its action log permuted into descending order. -/
def exCardPermuted : Card :=
  { exCardUnsorted with actions := [exMoveIntoL1 200, exMoveIntoL1 100] }

/-- A card with an empty action history and the documentation's example
identifier. -/
def exCardEmptyHistory : Card :=
  { id := "4d5ea62fd76aa1136000000c", idList := "L1", idMembers := ["m1"],
    name := "old card", dateLastActivity := 0, actions := [],
    url := "https://trello.example/c/two" }

/-- A card with an empty action history whose 24-character identifier starts
with the non-hexadecimal character `+`. -/
def exCardPlusId : Card :=
  { id := "+1234567abcdefabcdefabcd", idList := "L1", idMembers := ["m1"],
    name := "plus card", dateLastActivity := 0, actions := [],
    url := "https://trello.example/c/three" }

/-- A card with an empty action history and a 2-character identifier. -/
def exCardShortId : Card :=
  { id := "c3", idList := "L1", idMembers := ["m1"],
    name := "short card", dateLastActivity := 0, actions := [],
    url := "https://trello.example/c/four" }

/-- A member directory resolving member id `m1`. -/
def exDirectory : List (String × String) :=
  [("m1", "user1")]

/-- A pending review item used in dispatch examples. -/
def exReview : PendingReview :=
  { card_name := "example card", card_url := "https://trello.example/c/one",
    pending_since_days := 3 }

/-- Two users with non-empty buckets, in this iteration order. -/
def exEntriesC2 : List (String × List PendingReview) :=
  [("alice", [exReview]), ("bob", [exReview])]

/-- Slack mapping for both users. -/
def exMappingC2 : List (String × String) :=
  [("alice", "A"), ("bob", "B")]

/-- A poster that fails for Slack user `A` and succeeds otherwise. -/
def exPosterFailA : String → String → Except String Unit :=
  fun slack_user _ => if slack_user == "A" then .error "boom" else .ok ()

/-- A poster that always succeeds. -/
def exPosterOk : String → String → Except String Unit :=
  fun _ _ => .ok ()

/-- A configuration with both list scopes empty. -/
def exEmptyConfig : RunConfig :=
  { review_lists := [], inactive_cards_lists := [] }

/-- Pending reviews with elapsed measures 1, 5, 3, in that input order. -/
def exReviewsC9 : List PendingReview :=
  [{ card_name := "r1", card_url := "u1", pending_since_days := 1 },
   { card_name := "r5", card_url := "u5", pending_since_days := 5 },
   { card_name := "r3", card_url := "u3", pending_since_days := 3 }]

/-- Inactive cards with elapsed measures 1, 5, 3, in that input order. -/
def exInactiveC9 : List InactiveCard :=
  [{ card_name := "k1", card_url := "u1", pending_since_weeks := 1 },
   { card_name := "k5", card_url := "u5", pending_since_weeks := 5 },
   { card_name := "k3", card_url := "u3", pending_since_weeks := 3 }]

/-! ## Helper lemmas -/

theorem sorted_tail {a : Action} {l : List Action}
    (h : is_sorted_descending (a :: l) = true) : is_sorted_descending l = true := by
  cases l with
  | nil => rfl
  | cons b rest =>
    simp only [is_sorted_descending, Bool.and_eq_true] at h
    exact h.2

theorem sorted_head_ge {l : List Action} :
    ∀ {a : Action}, is_sorted_descending (a :: l) = true →
      ∀ x ∈ l, x.date ≤ a.date := by
  induction l with
  | nil => intro a _ x hx; cases hx
  | cons b rest ih =>
    intro a h x hx
    simp only [is_sorted_descending, Bool.and_eq_true, decide_eq_true_eq] at h
    rcases List.mem_cons.mp hx with hx | hx
    · exact hx ▸ h.1
    · exact le_trans (ih h.2 x hx) h.1

theorem scan_sorted_max (card : Card) :
    ∀ l : List Action, is_sorted_descending l = true →
      (l.filter (actionEntersList card)) ≠ [] →
      ∃ t, moved_to_list_date_scan card l = .ok t ∧
        t ∈ (l.filter (actionEntersList card)).map (fun a => a.date) ∧
        ∀ d ∈ (l.filter (actionEntersList card)).map (fun a => a.date), d ≤ t := by
  intro l
  induction l with
  | nil => intro _ hne; exact absurd rfl hne
  | cons a rest ih =>
    intro hsorted hne
    by_cases ha : actionEntersList card a
    · refine ⟨a.date, by simp [moved_to_list_date_scan, ha], ?_, ?_⟩
      · simp [ha]
      · intro d hd
        rw [List.filter_cons_of_pos ha, List.map_cons] at hd
        rcases List.mem_cons.mp hd with hd | hd
        · exact le_of_eq hd
        · obtain ⟨x, hx, hxd⟩ := List.mem_map.mp hd
          exact hxd ▸ sorted_head_ge hsorted x (List.mem_of_mem_filter hx)
    · have hfilter : (a :: rest).filter (actionEntersList card)
          = rest.filter (actionEntersList card) := by
        simp [List.filter_cons, ha]
      rw [hfilter] at hne ⊢
      obtain ⟨t, hscan, hmem, hmax⟩ := ih (sorted_tail hsorted) hne
      exact ⟨t, by simpa [moved_to_list_date_scan, ha] using hscan, hmem, hmax⟩

theorem scan_no_match (card : Card) :
    ∀ l : List Action, (∀ a ∈ l, actionEntersList card a = false) →
      moved_to_list_date_scan card l = creation_date_from_card_id card.id := by
  intro l
  induction l with
  | nil => intro _; rfl
  | cons a rest ih =>
    intro h
    have ha : actionEntersList card a = false := h a (List.mem_cons_self a rest)
    simp only [moved_to_list_date_scan, ha, Bool.false_eq_true, if_false]
    exact ih (fun x hx => h x (List.mem_cons_of_mem a hx))

theorem creation_date_error (card_id : String)
    (h : card_id.length < 8 ∨ u32_from_str_radix_16 (card_id.toList.take 8) = none) :
    ∃ e, creation_date_from_card_id card_id = .error e := by
  by_cases hlen : card_id.length < 8
  · exact ⟨"Card ID is too short to extract timestamp",
      by simp [creation_date_from_card_id, hlen]⟩
  · rcases h with h | h
    · exact absurd h hlen
    · refine ⟨"invalid digit found in string", ?_⟩
      simp only [String.toList] at h
      simp [creation_date_from_card_id, hlen, String.toList, h]

theorem moved_error_of_unparseable_id (card : Card)
    (hactions : ∀ a ∈ card.actions, actionEntersList card a = false)
    (hid : card.id.length < 8 ∨ u32_from_str_radix_16 (card.id.toList.take 8) = none) :
    ∃ e, moved_to_list_date card = .error e := by
  obtain ⟨e, he⟩ := creation_date_error card.id hid
  exact ⟨e, by rw [moved_to_list_date, scan_no_match card card.actions hactions, he]⟩

theorem process_cards_inactive_error {directory : List (String × String)} {now : Int}
    {card : Card} {e : String}
    (husers : resolve_users directory card ≠ [])
    (hmoved : moved_to_list_date card = .error e) :
    ∀ (cards : List Card) (b : List (String × List InactiveCard)), card ∈ cards →
      ∃ e', process_cards_inactive directory now cards b = .error e' := by
  intro cards
  induction cards with
  | nil => intro b hmem; cases hmem
  | cons c rest ih =>
    intro b hmem
    have hstep : process_inactive_card directory now card b = .error e := by
      have hempty : (resolve_users directory card).isEmpty = false := by
        cases hu : resolve_users directory card with
        | nil => exact absurd hu husers
        | cons x xs => rfl
      simp [process_inactive_card, hempty, hmoved]
    cases hc : process_inactive_card directory now c b with
    | error e' => exact ⟨e', by simp [process_cards_inactive, hc]⟩
    | ok b' =>
      rcases List.mem_cons.mp hmem with hcc | hmem'
      · rw [← hcc, hstep] at hc
        cases hc
      · obtain ⟨e', he'⟩ := ih b' hmem'
        exact ⟨e', by simp [process_cards_inactive, hc, he']⟩

theorem process_lists_inactive_error {directory : List (String × String)} {now : Int}
    {card : Card} {e : String}
    (husers : resolve_users directory card ≠ [])
    (hmoved : moved_to_list_date card = .error e) :
    ∀ (target_lists : List (List Card)) (b : List (String × List InactiveCard)),
      card ∈ target_lists.flatten →
      ∃ e', process_lists_inactive directory now target_lists b = .error e' := by
  intro target_lists
  induction target_lists with
  | nil => intro b hmem; cases hmem
  | cons cards rest ih =>
    intro b hmem
    cases hc : process_cards_inactive directory now cards b with
    | error e' => exact ⟨e', by simp [process_lists_inactive, hc]⟩
    | ok b' =>
      rcases List.mem_flatten.mp hmem with ⟨l, hl, hcl⟩
      rcases List.mem_cons.mp hl with hlc | hlr
      · obtain ⟨e', he'⟩ :=
          process_cards_inactive_error husers hmoved cards b (hlc ▸ hcl)
        rw [he'] at hc
        cases hc
      · obtain ⟨e', he'⟩ := ih b' (List.mem_flatten.mpr ⟨l, hlr, hcl⟩)
        exact ⟨e', by simp [process_lists_inactive, hc, he']⟩

theorem bucket_get_push (user : String) (item : α) :
    ∀ (b : List (String × List α)) (u : String),
      bucket_get (bucket_push user item b) u
        = if u = user then bucket_get b u ++ [item] else bucket_get b u := by
  intro b
  induction b with
  | nil =>
    intro u
    by_cases h : u = user
    · simp [bucket_push, bucket_get, List.find?, h]
    · have hne : (user == u) = false := by
        simp only [beq_eq_false_iff_ne, ne_eq]
        exact fun hh => h hh.symm
      simp [bucket_push, bucket_get, List.find?, h, hne]
  | cons p rest ih =>
    intro u
    obtain ⟨v, items⟩ := p
    by_cases hv : v = user
    · subst hv
      by_cases hu : u = v
      · subst hu
        simp [bucket_push, bucket_get, List.find?]
      · have hne : (v == u) = false := by
          simp only [beq_eq_false_iff_ne, ne_eq]
          exact fun hh => hu hh.symm
        simp [bucket_push, bucket_get, List.find?, hu, hne]
    · have hpush : bucket_push user item ((v, items) :: rest)
        = (v, items) :: bucket_push user item rest := by
        simp [bucket_push, hv]
      by_cases hu : u = v
      · subst hu
        simp [hpush, bucket_get, List.find?, hv]
      · have hne : (v == u) = false := by
          simp only [beq_eq_false_iff_ne, ne_eq]
          exact fun hh => hu hh.symm
        simp [hpush, bucket_get, List.find?, hne]
        exact ih u

theorem bucket_get_fold_push (item : α) :
    ∀ (users : List String) (b : List (String × List α)) (u : String),
      bucket_get (users.foldl (fun acc u' => bucket_push u' item acc) b) u ≠ []
        ↔ (u ∈ users ∨ bucket_get b u ≠ []) := by
  intro users
  induction users with
  | nil => intro b u; simp
  | cons w ws ih =>
    intro b u
    rw [List.foldl_cons, ih (bucket_push w item b) u, bucket_get_push]
    by_cases hw : u = w
    · simp [hw]
    · simp [hw]

theorem wrap64_tdiv_nonneg (m u : Nat) (hm : m ≤ 631107417599) :
    wrap64 (Int.tdiv (Int.ofNat m) (Int.ofNat u)) = m / u := by
  rw [show Int.tdiv (Int.ofNat m) (Int.ofNat u) = Int.ofNat (m / u) from rfl]
  have hk : m / u ≤ m := Nat.div_le_self m u
  revert hk
  generalize m / u = k
  intro hk
  unfold wrap64
  rw [Int.ofNat_eq_natCast]
  omega

theorem wrap64_tdiv_neg (m u : Nat) (hu : 0 < u) (hum : u ≤ m) (hm : m ≤ 631107417600) :
    2 ^ 63 ≤ wrap64 (Int.tdiv (-(Int.ofNat m)) (Int.ofNat u)) := by
  rw [Int.neg_tdiv, show Int.tdiv (Int.ofNat m) (Int.ofNat u) = Int.ofNat (m / u) from rfl]
  have h1 : 1 ≤ m / u := (Nat.one_le_div_iff hu).mpr hum
  have hk : m / u ≤ m := Nat.div_le_self m u
  revert h1 hk
  generalize m / u = k
  intro h1 hk
  unfold wrap64
  rw [Int.ofNat_eq_natCast]
  omega

theorem mergeSort_compl_key_pairwise (f : α → Nat) (l : List α)
    (hb : ∀ x ∈ l, f x ≤ usizeMax) :
    (l.mergeSort (fun a b => decide (usizeMax - f a ≤ usizeMax - f b))).Pairwise
      (fun a b => f b ≤ f a) := by
  have htrans : ∀ a b c : α,
      (decide (usizeMax - f a ≤ usizeMax - f b)) = true →
        (decide (usizeMax - f b ≤ usizeMax - f c)) = true →
        (decide (usizeMax - f a ≤ usizeMax - f c)) = true := by
    intro a b c hab hbc
    simp only [decide_eq_true_eq] at hab hbc ⊢
    exact le_trans hab hbc
  have htotal : ∀ a b : α,
      ((decide (usizeMax - f a ≤ usizeMax - f b))
        || (decide (usizeMax - f b ≤ usizeMax - f a))) = true := by
    intro a b
    rcases Nat.le_total (usizeMax - f a) (usizeMax - f b) with h | h <;> simp [h]
  have hp := List.sorted_mergeSort htrans htotal l
  have hmem : ∀ x ∈ l.mergeSort (fun a b => decide (usizeMax - f a ≤ usizeMax - f b)),
      f x ≤ usizeMax := by
    intro x hx
    exact hb x ((List.mergeSort_perm l _).mem_iff.mp hx)
  refine List.Pairwise.imp_of_mem ?_ hp
  intro a b ha hbmem hab
  simp only [decide_eq_true_eq] at hab
  have hfa := hmem a ha
  have hfb := hmem b hbmem
  unfold usizeMax at hab hfa hfb
  omega

theorem pairwise_head_max (f : α → Nat) (l : List α) (x : α)
    (hp : l.Pairwise (fun a b => f b ≤ f a)) (hx : x ∈ l) :
    ∃ hd tl, l = hd :: tl ∧ f x ≤ f hd := by
  cases l with
  | nil => cases hx
  | cons hd tl =>
    rcases List.mem_cons.mp hx with hxh | hxt
    · exact ⟨hd, tl, rfl, le_of_eq (congrArg f hxh)⟩
    · exact ⟨hd, tl, rfl, List.rel_of_pairwise_cons hp hxt⟩

/-! ## Claim theorems -/

/-- Claim C1 (amended): when the action log is sorted descending by timestamp
(the ordering the `debug_assert!` checks), `moved_to_list_date` returns the
timestamp of the most recent action that entered the card's current list
(update-moves and creations alike).  The result is not invariant under
permutation of the log: the scan returns the first qualifying action in
physical order (see the counterexample). -/
theorem moved_to_list_date_sorted_returns_latest (card : Card)
    (hsorted : is_sorted_descending card.actions = true)
    (hne : action_dates_into_list card ≠ []) :
    ∃ t, moved_to_list_date card = .ok t ∧ t ∈ action_dates_into_list card ∧
      ∀ d ∈ action_dates_into_list card, d ≤ t := by
  have hfilter : card.actions.filter (actionEntersList card) ≠ [] := by
    intro h
    apply hne
    unfold action_dates_into_list
    rw [h]
    rfl
  obtain ⟨t, h1, h2, h3⟩ := scan_sorted_max card card.actions hsorted hfilter
  exact ⟨t, h1, h2, h3⟩

/-- Witness for C1's amended theorem: on the descending log `[200, 100]` the
resolver returns 200, the most recent entry into the current list. -/
theorem moved_to_list_date_sorted_returns_latest_witness :
    ∃ t, moved_to_list_date exCardPermuted = .ok t ∧
      t ∈ action_dates_into_list exCardPermuted ∧
      ∀ d ∈ action_dates_into_list exCardPermuted, d ≤ t :=
  moved_to_list_date_sorted_returns_latest exCardPermuted (by decide) (by decide)

/-- Counterexample to C1 as stated: two cards with permuted action logs (both
containing qualifying update-moves at times 100 and 200 into the current
list) resolve to different timestamps, and the ascending log resolves to 100
even though the most recent qualifying action is at 200. -/
theorem moved_to_list_date_not_permutation_invariant :
    moved_to_list_date exCardUnsorted = .ok 100 ∧
    moved_to_list_date exCardPermuted = .ok 200 ∧
    exCardUnsorted.actions.Perm exCardPermuted.actions ∧
    exCardUnsorted.idList = exCardPermuted.idList ∧
    (200 : Int) ∈ action_dates_into_list exCardUnsorted ∧
    ∀ d ∈ action_dates_into_list exCardUnsorted, d ≤ 200 := by
  refine ⟨rfl, rfl, ?_, rfl, by decide, by decide⟩
  exact List.Perm.swap (exMoveIntoL1 200) (exMoveIntoL1 100) []

/-- Claim C4: a card with an empty action history resolves via
`creation_date_from_card_id`, decoding the identifier's leading 8 hex
characters as a Unix timestamp; identifier `4d5ea62fd76aa1136000000c` decodes
to Unix time 1298048559. -/
theorem empty_history_decodes_card_id (card : Card) (h : card.actions = []) :
    moved_to_list_date card = creation_date_from_card_id card.id ∧
    (card.id = "4d5ea62fd76aa1136000000c" → moved_to_list_date card = .ok 1298048559) := by
  have hscan : moved_to_list_date card = creation_date_from_card_id card.id := by
    unfold moved_to_list_date
    rw [h]
    rfl
  refine ⟨hscan, fun hid => ?_⟩
  rw [hscan, hid]
  rfl

/-- Witness for C4: the concrete card with empty history and the documented
identifier resolves to Unix time 1298048559. -/
theorem empty_history_decodes_card_id_witness :
    moved_to_list_date exCardEmptyHistory = .ok 1298048559 :=
  (empty_history_decodes_card_id exCardEmptyHistory rfl).2 rfl

/-- Claim C5 (amended): for a card none of whose actions enters its current
list and whose identifier is shorter than 8 characters or whose first 8
characters do not parse as an unsigned hexadecimal number (the parser also
accepts an optional leading `+` sign, so merely starting with a
non-hexadecimal character is not enough — see the counterexample),
`moved_to_list_date` returns an error; and when such a card with at least one
resolved member sits in one of the processed lists, the error propagates out
of `get_inactive_cards`, aborting the entire aggregation. -/
theorem unparseable_id_aborts_inactive_aggregation
    (directory : List (String × String)) (now : Int)
    (target_lists : List (List Card)) (card : Card)
    (hmem : card ∈ target_lists.flatten)
    (husers : resolve_users directory card ≠ [])
    (hactions : ∀ a ∈ card.actions, actionEntersList card a = false)
    (hid : card.id.length < 8 ∨ u32_from_str_radix_16 (card.id.toList.take 8) = none) :
    (∃ e, moved_to_list_date card = .error e) ∧
    (∃ e', get_inactive_cards directory now target_lists = .error e') := by
  obtain ⟨e, he⟩ := moved_error_of_unparseable_id card hactions hid
  exact ⟨⟨e, he⟩, process_lists_inactive_error husers he target_lists [] hmem⟩

/-- Witness for C5's amended theorem: a 2-character identifier dooms the run
when the card is processed with a resolved member. -/
theorem unparseable_id_aborts_inactive_aggregation_witness :
    (∃ e, moved_to_list_date exCardShortId = .error e) ∧
    (∃ e', get_inactive_cards exDirectory 0 [[exCardShortId]] = .error e') :=
  unparseable_id_aborts_inactive_aggregation exDirectory 0 [[exCardShortId]] exCardShortId
    (by decide) (by decide) (by decide) (Or.inl (by decide))

/-- Counterexample to C5 as stated: the identifier
`+1234567abcdefabcdefabcd` has a non-hexadecimal leading character, yet
`moved_to_list_date` succeeds (the unsigned-hex parser accepts a leading
`+`), returning Unix time 0x1234567 = 19088743 instead of an error. -/
theorem plus_signed_id_decodes :
    moved_to_list_date exCardPlusId = .ok 19088743 ∧
    exCardPlusId.actions = [] ∧
    ¬ (exCardPlusId.id.toList.take 8).all (fun c => (hexDigitValue c).isSome) := by
  exact ⟨rfl, rfl, by decide⟩

/-- Claim C6: for a card with at least one resolved user whose list-entry time
resolves to `t`, the card lands in a user's bucket exactly when the user is
resolved for the card and the elapsed whole weeks reach
`INACTIVE_WEEKS_THRESHOLD` (= 2). -/
theorem inactive_threshold_filters_buckets
    (directory : List (String × String)) (now : Int) (card : Card) (t : Int)
    (husers : resolve_users directory card ≠ [])
    (hmoved : moved_to_list_date card = .ok t) :
    ∃ b', process_inactive_card directory now card [] = .ok b' ∧
      ∀ u, bucket_get b' u ≠ [] ↔
        (u ∈ resolve_users directory card ∧
          INACTIVE_WEEKS_THRESHOLD ≤ elapsed_weeks now t) := by
  have hempty : (resolve_users directory card).isEmpty = false := by
    cases hu : resolve_users directory card with
    | nil => exact absurd hu husers
    | cons x xs => rfl
  by_cases hlt : elapsed_weeks now t < INACTIVE_WEEKS_THRESHOLD
  · refine ⟨[], ?_, ?_⟩
    · simp [process_inactive_card, hempty, hmoved, hlt]
    · intro u
      constructor
      · intro h
        exact absurd rfl h
      · rintro ⟨_, hle⟩
        exact absurd hle (Nat.not_le.mpr hlt)
  · refine ⟨(resolve_users directory card).foldl
      (fun b u => bucket_push u
        { card_name := card.name, card_url := card.url
          pending_since_weeks := elapsed_weeks now t } b) [], ?_, ?_⟩
    · simp [process_inactive_card, hempty, hmoved, hlt]
    · intro u
      rw [bucket_get_fold_push]
      have hget : bucket_get ([] : List (String × List InactiveCard)) u = [] := rfl
      simp [hget, Nat.not_lt.mp hlt]

/-- Witness for C6: with `now` two weeks after the resolved entry time 200,
the card is bucketed exactly for its resolved user. -/
theorem inactive_threshold_filters_buckets_witness :
    ∃ b', process_inactive_card exDirectory 1209800 exCardPermuted [] = .ok b' ∧
      ∀ u, bucket_get b' u ≠ [] ↔
        (u ∈ resolve_users exDirectory exCardPermuted ∧
          INACTIVE_WEEKS_THRESHOLD ≤ elapsed_weeks 1209800 200) :=
  inactive_threshold_filters_buckets exDirectory 1209800 exCardPermuted 200
    (by decide) rfl

/-- Claim C7: for reference time within the representable range and not after
`now`, both elapsed measures are whole-unit truncations of the non-negative
difference, and are exactly 0 when the reference time equals `now`. -/
theorem elapsed_measures_truncate (now ref : Int)
    (hn1 : tsMin ≤ now) (hn2 : now ≤ tsMax) (hr1 : tsMin ≤ ref) (hr2 : ref ≤ tsMax)
    (h : ref ≤ now) :
    elapsed_days now ref = (now - ref).toNat / 86400 ∧
    elapsed_weeks now ref = (now - ref).toNat / 604800 ∧
    (ref = now → elapsed_days now ref = 0 ∧ elapsed_weeks now ref = 0) := by
  have hdm : now - ref = Int.ofNat ((now - ref).toNat) := by
    rw [Int.ofNat_eq_natCast]
    omega
  have hbound : (now - ref).toNat ≤ 631107417599 := by
    simp only [tsMin, tsMax] at hn1 hn2 hr1 hr2
    omega
  have hdays : elapsed_days now ref = (now - ref).toNat / 86400 := by
    unfold elapsed_days
    rw [hdm]
    exact wrap64_tdiv_nonneg ((now - ref).toNat) 86400 hbound
  have hweeks : elapsed_weeks now ref = (now - ref).toNat / 604800 := by
    unfold elapsed_weeks
    rw [hdm]
    exact wrap64_tdiv_nonneg ((now - ref).toNat) 604800 hbound
  refine ⟨hdays, hweeks, fun heq => ⟨?_, ?_⟩⟩
  · rw [hdays]
    omega
  · rw [hweeks]
    omega

/-- Witness for C7 at `ref = 0`, `now = 86400`: one whole day, zero whole
weeks; and at equality the measures are zero by the same theorem. -/
theorem elapsed_measures_truncate_witness :
    elapsed_days 86400 0 = (86400 - 0 : Int).toNat / 86400 ∧
    elapsed_weeks 86400 0 = (86400 - 0 : Int).toNat / 604800 ∧
    ((0 : Int) = 86400 → elapsed_days 86400 0 = 0 ∧ elapsed_weeks 86400 0 = 0) :=
  elapsed_measures_truncate 86400 0 (by decide) (by decide) (by decide) (by decide)
    (by decide)

/-- Claim C8: a card none of whose member identifiers resolves through the
directory is skipped by both pipelines: the buckets are returned unchanged
and, in the inactive pipeline, no error is raised. -/
theorem unattributed_card_contributes_nothing
    (directory : List (String × String)) (now : Int) (card : Card)
    (h : resolve_users directory card = []) :
    (∀ bp : List (String × List PendingReview),
        process_pending_card directory now card bp = bp) ∧
    (∀ bi : List (String × List InactiveCard),
        process_inactive_card directory now card bi = .ok bi) := by
  have hempty : (resolve_users directory card).isEmpty = true := by
    rw [h]
    rfl
  constructor
  · intro bp
    simp [process_pending_card, hempty]
  · intro bi
    simp [process_inactive_card, hempty]

/-- Witness for C8: a card whose sole member id is absent from the directory
leaves both pipelines' buckets untouched. -/
theorem unattributed_card_contributes_nothing_witness :
    (∀ bp : List (String × List PendingReview),
        process_pending_card [] 0 exCardShortId bp = bp) ∧
    (∀ bi : List (String × List InactiveCard),
        process_inactive_card [] 0 exCardShortId bi = .ok bi) :=
  unattributed_card_contributes_nothing [] 0 exCardShortId (by decide)

/-- Claim C9: both composers render their per-item lines on the stably sorted
item list, which is in non-increasing order of the elapsed measure (elapsed
measures are `usize` values, hence at most `usize::MAX`). -/
theorem compose_messages_sorted_descending
    (reviews : List PendingReview) (cards : List InactiveCard)
    (hr : ∀ r ∈ reviews, r.pending_since_days ≤ usizeMax)
    (hc : ∀ c ∈ cards, c.pending_since_weeks ≤ usizeMax) :
    (sort_pending_reviews reviews).Pairwise
      (fun a b => b.pending_since_days ≤ a.pending_since_days) ∧
    (sort_inactive_cards cards).Pairwise
      (fun a b => b.pending_since_weeks ≤ a.pending_since_weeks) :=
  ⟨mergeSort_compl_key_pairwise (fun r => r.pending_since_days) reviews hr,
   mergeSort_compl_key_pairwise (fun c => c.pending_since_weeks) cards hc⟩

unseal List.merge List.mergeSort in
/-- Witness for C9: items with elapsed measures `[1, 5, 3]` are rendered in
the order `[5, 3, 1]` by both composers. -/
theorem compose_messages_sorted_descending_witness :
    ((sort_pending_reviews exReviewsC9).Pairwise
        (fun a b => b.pending_since_days ≤ a.pending_since_days) ∧
      (sort_inactive_cards exInactiveC9).Pairwise
        (fun a b => b.pending_since_weeks ≤ a.pending_since_weeks)) ∧
    (sort_pending_reviews exReviewsC9).map (fun r => r.pending_since_days) = [5, 3, 1] ∧
    (sort_inactive_cards exInactiveC9).map (fun c => c.pending_since_weeks) = [5, 3, 1] :=
  ⟨compose_messages_sorted_descending exReviewsC9 exInactiveC9 (by decide) (by decide),
   by decide, by decide⟩

/-- Claim C10: a reference timestamp at least one whole unit in the future of
`now` — one whole day for the pending-reviews measure, one whole week for the
inactive-cards measure — makes the signed whole-unit count negative; the
`as usize` cast wraps it to at least `2 ^ 63`, so such a future-dated card
always clears the inactive-cards threshold and sorts to the head of the
composed message (the head of the sorted list carries a wrapped,
future-dated measure). -/
theorem future_reference_treated_as_maximally_stale (now ref : Int)
    (hn1 : tsMin ≤ now) (hn2 : now ≤ tsMax) (hr1 : tsMin ≤ ref) (hr2 : ref ≤ tsMax) :
    (86400 ≤ ref - now → 2 ^ 63 ≤ elapsed_days now ref) ∧
    (604800 ≤ ref - now →
      2 ^ 63 ≤ elapsed_weeks now ref ∧
      INACTIVE_WEEKS_THRESHOLD ≤ elapsed_weeks now ref ∧
      ∀ (items : List InactiveCard) (x : InactiveCard), x ∈ items →
        x.pending_since_weeks = elapsed_weeks now ref →
        (∀ i ∈ items, i.pending_since_weeks ≤ usizeMax) →
        ∃ hd tl, sort_inactive_cards items = hd :: tl ∧
          2 ^ 63 ≤ hd.pending_since_weeks) := by
  have hbound : (ref - now).toNat ≤ 631107417600 := by
    simp only [tsMin, tsMax] at hn1 hn2 hr1 hr2
    omega
  constructor
  · intro h
    have hmrep : now - ref = -(Int.ofNat ((ref - now).toNat)) := by
      rw [Int.ofNat_eq_natCast]
      omega
    unfold elapsed_days
    rw [hmrep]
    exact wrap64_tdiv_neg _ 86400 (by decide) (by omega) hbound
  · intro h
    have hmrep : now - ref = -(Int.ofNat ((ref - now).toNat)) := by
      rw [Int.ofNat_eq_natCast]
      omega
    have hweeks : 2 ^ 63 ≤ elapsed_weeks now ref := by
      unfold elapsed_weeks
      rw [hmrep]
      exact wrap64_tdiv_neg _ 604800 (by decide) (by omega) hbound
    refine ⟨hweeks, le_trans (by decide) hweeks, ?_⟩
    intro items x hx hxw hb
    have hp : (sort_inactive_cards items).Pairwise
        (fun a b => b.pending_since_weeks ≤ a.pending_since_weeks) :=
      mergeSort_compl_key_pairwise (fun c => c.pending_since_weeks) items hb
    have hx' : x ∈ sort_inactive_cards items :=
      (List.mergeSort_perm items _).mem_iff.mpr hx
    obtain ⟨hd, tl, hl, hle⟩ :=
      pairwise_head_max (fun c => c.pending_since_weeks) (sort_inactive_cards items) x hp hx'
    refine ⟨hd, tl, hl, le_trans ?_ hle⟩
    rw [hxw]
    exact hweeks

/-- Witness for C10: a pending-review reference one whole day ahead
(`ref = 86400`, `now = 0`) wraps its day count to at least `2 ^ 63`, and an
inactive-card reference one whole week ahead (`ref = 604800`, `now = 0`)
wraps its week count likewise and clears the threshold. -/
theorem future_reference_treated_as_maximally_stale_witness :
    2 ^ 63 ≤ elapsed_days 0 86400 ∧
    2 ^ 63 ≤ elapsed_weeks 0 604800 ∧
    INACTIVE_WEEKS_THRESHOLD ≤ elapsed_weeks 0 604800 :=
  ⟨(future_reference_treated_as_maximally_stale 0 86400 (by decide) (by decide)
      (by decide) (by decide)).1 (by decide),
   ((future_reference_treated_as_maximally_stale 0 604800 (by decide) (by decide)
      (by decide) (by decide)).2 (by decide)).1,
   ((future_reference_treated_as_maximally_stale 0 604800 (by decide) (by decide)
      (by decide) (by decide)).2 (by decide)).2.1⟩

/-- Claim C2 (amended): the per-user dispatch loop aborts on the first
`post_message` failure: when the loop's outcome is an error, the attempted
posts are exactly those of the eligible entries up to and including the
failing one, and no later entry is attempted. -/
theorem dispatch_aborts_on_first_failure {α : Type} (compose : List α → String)
    (mapping : List (String × String)) (poster : String → String → Except String Unit) :
    ∀ (entries : List (String × List α)) (e : String),
      (dispatch_notifications compose mapping poster entries).outcome = .error e →
      ∃ pre entry post su, entries = pre ++ entry :: post ∧
        eligible_slack mapping entry = some su ∧
        poster su (compose entry.2) = .error e ∧
        (dispatch_notifications compose mapping poster entries).attempted
          = pre.filterMap (fun p => eligible_slack mapping p) ++ [su] := by
  intro entries
  induction entries with
  | nil =>
    intro e h
    simp [dispatch_notifications] at h
  | cons entry rest ih =>
    intro e h
    cases hel : eligible_slack mapping entry with
    | none =>
      have hstep : dispatch_notifications compose mapping poster (entry :: rest)
          = dispatch_notifications compose mapping poster rest := by
        simp [dispatch_notifications, hel]
      rw [hstep] at h
      obtain ⟨pre, en, post, su, h1, h2, h3, h4⟩ := ih e h
      refine ⟨entry :: pre, en, post, su, by rw [h1]; rfl, h2, h3, ?_⟩
      rw [hstep, h4, List.filterMap_cons]
      simp [hel]
    | some su0 =>
      cases hp : poster su0 (compose entry.2) with
      | ok u0 =>
        have hstep : dispatch_notifications compose mapping poster (entry :: rest)
            = { attempted := su0 ::
                  (dispatch_notifications compose mapping poster rest).attempted,
                outcome := (dispatch_notifications compose mapping poster rest).outcome } := by
          simp [dispatch_notifications, hel, hp]

        have h' : (dispatch_notifications compose mapping poster rest).outcome = .error e := by
          rw [hstep] at h
          exact h
        obtain ⟨pre, en, post, su, h1, h2, h3, h4⟩ := ih e h'
        refine ⟨entry :: pre, en, post, su, by rw [h1]; rfl, h2, h3, ?_⟩
        rw [hstep]
        simp only [List.filterMap_cons, hel]
        rw [h4]
        simp
      | error e0 =>
        have hstep : dispatch_notifications compose mapping poster (entry :: rest)
            = { attempted := [su0], outcome := .error e0 } := by
          simp [dispatch_notifications, hel, hp]
        have he : (Except.error e0 : Except String Unit) = .error e := by
          rw [hstep] at h
          exact h
        have he' : e0 = e := by
          injection he
        subst he'
        refine ⟨[], entry, rest, su0, rfl, hel, hp, ?_⟩
        rw [hstep]
        rfl

/-- Witness for C2's amended theorem on the concrete failing batch. -/
theorem dispatch_aborts_on_first_failure_witness :
    ∃ pre entry post su, exEntriesC2 = pre ++ entry :: post ∧
      eligible_slack exMappingC2 entry = some su ∧
      exPosterFailA su (compose_pending_reviews_message entry.2) = .error "boom" ∧
      (dispatch_notifications compose_pending_reviews_message exMappingC2 exPosterFailA
          exEntriesC2).attempted
        = pre.filterMap (fun p => eligible_slack exMappingC2 p) ++ [su] :=
  dispatch_aborts_on_first_failure compose_pending_reviews_message exMappingC2
    exPosterFailA exEntriesC2 "boom" rfl

/-- Counterexample to C2 as stated: with two eligible users in iteration
order `[alice, bob]` and posting failing for alice's Slack user `A`, the loop
aborts: `B` (bob's Slack user, eligible with a non-empty bucket) is never
attempted. -/
theorem dispatch_failure_skips_remaining_user :
    (pending_reviews_dispatch exMappingC2 exPosterFailA exEntriesC2).attempted = ["A"] ∧
    eligible_slack exMappingC2 ("bob", [exReview]) = some "B" ∧
    "B" ∉ (pending_reviews_dispatch exMappingC2 exPosterFailA exEntriesC2).attempted := by
  refine ⟨rfl, rfl, ?_⟩
  intro hmem
  rw [show (pending_reviews_dispatch exMappingC2 exPosterFailA exEntriesC2).attempted
      = ["A"] from rfl] at hmem
  simp at hmem

/-- Claim C3 (amended): only the pending-reviews action guards an empty
configured scope (logging an error and returning `Ok` without work); the
inactive-cards action performs no such guard — with an empty scope it
proceeds, processes no cards and sends no messages, but logs no empty-scope
error. -/
theorem empty_scope_guard_only_pending (config : RunConfig) (lists : List TrelloList)
    (cardsOf : TrelloList → List Card) (directory : List (String × String)) (now : Int)
    (mapping : List (String × String)) (poster : String → String → Except String Unit) :
    (config.review_lists = [] →
      (run_main ActionConfig.pendingReviews config lists cardsOf directory now mapping
          poster)
        = { logged_empty_scope_error := true, attempted := [], outcome := .ok () }) ∧
    (config.inactive_cards_lists = [] →
      (run_main ActionConfig.inactiveCards config lists cardsOf directory now mapping
          poster)
        = { logged_empty_scope_error := false, attempted := [], outcome := .ok () }) := by
  constructor
  · intro h
    have hempty : config.review_lists.isEmpty = true := by
      rw [h]
      rfl
    simp [run_main, hempty]
  · intro h
    have hscope : inactive_scope config lists = [] := by
      simp [inactive_scope, h]
    simp [run_main, hscope, get_inactive_cards, process_lists_inactive,
      inactive_cards_dispatch, dispatch_notifications]

/-- Witness for C3's amended theorem at an all-empty configuration. -/
theorem empty_scope_guard_only_pending_witness :
    (run_main ActionConfig.pendingReviews exEmptyConfig [] (fun _ => []) [] 0 [] exPosterOk)
      = { logged_empty_scope_error := true, attempted := [], outcome := .ok () } ∧
    (run_main ActionConfig.inactiveCards exEmptyConfig [] (fun _ => []) [] 0 [] exPosterOk)
      = { logged_empty_scope_error := false, attempted := [], outcome := .ok () } :=
  ⟨(empty_scope_guard_only_pending exEmptyConfig [] (fun _ => []) [] 0 [] exPosterOk).1 rfl,
   (empty_scope_guard_only_pending exEmptyConfig [] (fun _ => []) [] 0 [] exPosterOk).2 rfl⟩

/-- Counterexample to C3 as stated: running the inactive-cards action with an
empty configured scope does not log the empty-scope error (the run still ends
successfully having sent nothing, but the claimed error log never happens). -/
theorem inactive_empty_scope_not_guarded :
    (run_main ActionConfig.inactiveCards exEmptyConfig [] (fun _ => []) [] 0 []
        exPosterOk).logged_empty_scope_error = false ∧
    (run_main ActionConfig.inactiveCards exEmptyConfig [] (fun _ => []) [] 0 []
        exPosterOk).outcome = .ok () :=
  ⟨rfl, rfl⟩

end TrelloSlack
